import Mathlib

/-!
Verification development for the taserver firewall core
(src/firewall/iptables_firewall.py and src/firewall/windows_firewall.py).

The Python code is shallowly embedded: the iptables kernel state is an
association list from chain names to ordered rule lists, the Windows
firewall state is a finite set of named rules plus per-policy membership
caches, and every policy operation is a pure state-transformer translated
line by line from the source.
-/

set_option autoImplicit false

namespace Taserver

/-- Embeds the `Rule` NamedTuple of iptables_firewall.py (lines 16-20).
All four fields default to `None` in the source, here `none`. -/
structure Rule where
  protocol : Option String := none
  ports : Option (List String) := none
  target : Option String := none
  ip : Option String := none
deriving DecidableEq, Repr

/-- The iptables commands used by the code (class `Commands`, lines 65-73). -/
inductive Cmd where
  | append | insert | delete | newChain | flushChain | deleteChain | check
deriving DecidableEq, Repr

/-- The iptables command-line flag for each command (class `Commands`). -/
def Cmd.flag : Cmd → String
  | .append => "-A"
  | .insert => "-I"
  | .delete => "-D"
  | .newChain => "-N"
  | .flushChain => "-F"
  | .deleteChain => "-X"
  | .check => "-C"

/-- Python truthiness of an optional string (`if rule.protocol:` etc.). -/
def truthy : Option String → Bool
  | none => false
  | some s => s ≠ ""

/-- The `['-j', target]` and `['-s', ip]` argument suffix of
`IPTables.iptables` (lines 43-47). -/
def targetIpArgs (rule : Rule) : List String :=
  (if truthy rule.target then ["-j", rule.target.getD ""] else []) ++
    (if truthy rule.ip then ["-s", rule.ip.getD ""] else [])

/-- The argument list built by `IPTables.iptables` (lines 28-47); `none` is
the early-error path of lines 39-41, where a present-but-empty port list is
logged and the function returns 1 without calling the OS. -/
def iptables_args (command : String) (chain : String) (rule : Rule) : Option (List String) :=
  let base := ["iptables", "-w", command, chain] ++
    (if truthy rule.protocol then ["-p", rule.protocol.getD ""] else [])
  match rule.ports with
  | none => some (base ++ targetIpArgs rule)
  | some ps =>
    if ps.length = 1 then
      some (base ++ ["--dport", ps.headD ""] ++ targetIpArgs rule)
    else if ps.length > 1 then
      some (base ++ ["-m", "multiport", "--dport", String.intercalate "," ps] ++ targetIpArgs rule)
    else
      none

/-- Python's `str.strip()` on a character list: drop whitespace from both
ends. -/
def pyStrip (l : List Char) : List Char :=
  ((l.dropWhile Char.isWhitespace).reverse.dropWhile Char.isWhitespace).reverse

/-- One line of the ban file, parsed as in `Banlist.update_banlist`
(lines 248-252): take the text before the first '#'
(`line.partition('#')[0]`), strip whitespace, keep it when non-empty. -/
def parseLine (line : String) : Option String :=
  let ip := String.mk (pyStrip (line.toList.takeWhile (fun c => c ≠ '#')))
  if ip.length > 0 then some ip else none

/-- The set of entries parsed from the ban file's lines (set semantics,
as `new_banned` in `Banlist.update_banlist`). -/
def parseBanfile (lines : List String) : Finset String :=
  lines.foldr (fun l acc => match parseLine l with
    | some ip => insert ip acc
    | none => acc) ∅

/-- A call the banlist reconciler makes on its blacklist policy. -/
inductive BanOp where
  | remove (ip : String)
  | add (ip : String)
deriving DecidableEq, Repr

/-- `Banlist.update_banlist` (lines 241-264) as a function from the cached
banned set and the file contents (`none` when the file does not exist) to
the list of blacklist calls made, in order, and the new cached set.
Python iterates sets in unspecified order; we enumerate each diff set in
sorted order, one fixed repetition-free enumeration. -/
def update_banlist (banned : Finset String) (file : Option (List String)) :
    List BanOp × Finset String :=
  match file with
  | none => ([], banned)
  | some lines =>
    let new_banned := parseBanfile lines
    let removed := banned \ new_banned
    let added := new_banned \ banned
    ((removed.sort (· ≤ ·)).map BanOp.remove ++ (added.sort (· ≤ ·)).map BanOp.add, new_banned)

/-- The iptables kernel state: chains with their ordered rule lists.
The built-in INPUT chain is one of the entries. -/
abbrev IptOS := List (String × List Rule)

/-- Contents of a chain, `none` when the chain does not exist. -/
def getChain (os : IptOS) (c : String) : Option (List Rule) :=
  (os.find? (fun p => p.1 = c)).map Prod.snd

/-- Replace the contents of chain `c` (no effect when `c` does not exist). -/
def setChain (os : IptOS) (c : String) (rs : List Rule) : IptOS :=
  os.map (fun p => if p.1 = c then (c, rs) else p)

/-- Create an empty chain named `c` (`iptables -N`). -/
def createChain (os : IptOS) (c : String) : IptOS :=
  os ++ [(c, [])]

/-- Delete the chain entry named `c` (`iptables -X`). -/
def dropChain (os : IptOS) (c : String) : IptOS :=
  os.filter (fun p => p.1 ≠ c)

/-- Whether some rule in some chain jumps to chain `c`; iptables refuses to
delete a chain that is still referenced. -/
def referenced (os : IptOS) (c : String) : Bool :=
  os.any (fun p => p.2.any (fun r => r.target = some c))

/-- Semantics of one `IPTables.iptables` call (lines 28-62): the new kernel
state and the exit code. The `rule.ports = some []` test is the early-error
path (lines 39-41), which returns 1 without invoking the OS at all. `-C`
reports 0 exactly when the rule is present; `-I` (no index) prepends; `-A`
appends; `-D` deletes the first matching rule; `-X` fails on a non-empty or
still-referenced chain. -/
def iptablesExec (os : IptOS) (cmd : Cmd) (chain : String) (rule : Rule) : IptOS × Nat :=
  if rule.ports = some [] then (os, 1)
  else
    match cmd with
    | .check =>
      match getChain os chain with
      | some rs => (os, if rule ∈ rs then 0 else 1)
      | none => (os, 1)
    | .append =>
      match getChain os chain with
      | some rs => (setChain os chain (rs ++ [rule]), 0)
      | none => (os, 1)
    | .insert =>
      match getChain os chain with
      | some rs => (setChain os chain (rule :: rs), 0)
      | none => (os, 1)
    | .delete =>
      match getChain os chain with
      | some rs => if rule ∈ rs then (setChain os chain (rs.erase rule), 0) else (os, 1)
      | none => (os, 1)
    | .newChain =>
      match getChain os chain with
      | some _ => (os, 1)
      | none => (createChain os chain, 0)
    | .flushChain =>
      match getChain os chain with
      | some _ => (setChain os chain [], 0)
      | none => (os, 1)
    | .deleteChain =>
      match getChain os chain with
      | some rs => if rs = [] ∧ ¬ referenced os chain then (dropChain os chain, 0) else (os, 1)
      | none => (os, 1)

/-- The chain every forwarding rule lives in (`self.input_chain`). -/
def input_chain : String := "INPUT"

/-- Configuration of an `IPTablesWhitelist` (lines 143-155): the
deduplicated port list and the per-offset chain name. -/
structure WLCfg where
  ports : List String
  chain : String
deriving DecidableEq, Repr

/-- The per-IP tcp ACCEPT rule of `IPTablesWhitelist.add` (line 159). -/
def wlTcpRule (cfg : WLCfg) (ip : String) : Rule :=
  { protocol := some "tcp", ports := some cfg.ports, target := some "ACCEPT", ip := some ip }

/-- The per-IP udp ACCEPT rule of `IPTablesWhitelist.add` (line 160). -/
def wlUdpRule (cfg : WLCfg) (ip : String) : Rule :=
  { protocol := some "udp", ports := some cfg.ports, target := some "ACCEPT", ip := some ip }

/-- The tcp forwarding rule from INPUT to the whitelist chain (line 181). -/
def wlFwdTcpRule (cfg : WLCfg) : Rule :=
  { protocol := some "tcp", ports := some cfg.ports, target := some cfg.chain }

/-- The udp forwarding rule from INPUT to the whitelist chain (line 182). -/
def wlFwdUdpRule (cfg : WLCfg) : Rule :=
  { protocol := some "udp", ports := some cfg.ports, target := some cfg.chain }

/-- The catch-all `Rule(target='DROP')` appended by reset (line 203). -/
def dropAllRule : Rule := { target := some "DROP" }

/-- The loopback `Rule(ip_address='127.0.0.1', target='ACCEPT')` inserted by
reset (line 205). -/
def acceptLoRule : Rule := { target := some "ACCEPT", ip := some "127.0.0.1" }

/-- The `if check != 0: insert` pattern used throughout both policies. -/
def guardInsert (chain : String) (os : IptOS) (r : Rule) : IptOS :=
  if (iptablesExec os .check chain r).2 ≠ 0 then
    (iptablesExec os .insert chain r).1 else os

/-- The `if check != 0: append` pattern used throughout both policies. -/
def guardAppend (chain : String) (os : IptOS) (r : Rule) : IptOS :=
  if (iptablesExec os .check chain r).2 ≠ 0 then
    (iptablesExec os .append chain r).1 else os

/-- `IPTablesWhitelist.add` (lines 157-168): check-then-insert the tcp rule,
then check-then-insert the udp rule. -/
def wlAdd (cfg : WLCfg) (os : IptOS) (ip : String) : IptOS :=
  guardInsert cfg.chain (guardInsert cfg.chain os (wlTcpRule cfg ip)) (wlUdpRule cfg ip)

/-- `IPTablesWhitelist.remove` (lines 170-177): unconditional deletes, tcp
then udp. -/
def wlRemove (cfg : WLCfg) (os : IptOS) (ip : String) : IptOS :=
  (iptablesExec (iptablesExec os .delete cfg.chain (wlTcpRule cfg ip)).1
    .delete cfg.chain (wlUdpRule cfg ip)).1

/-- `IPTablesWhitelist.remove_all` (lines 179-191): delete both forwarding
rules from INPUT, flush the chain, delete the chain. -/
def wlRemoveAll (cfg : WLCfg) (os : IptOS) : IptOS :=
  (iptablesExec (iptablesExec (iptablesExec (iptablesExec os
    .delete input_chain (wlFwdTcpRule cfg)).1
    .delete input_chain (wlFwdUdpRule cfg)).1
    .flushChain cfg.chain {}).1
    .deleteChain cfg.chain {}).1

/-- `IPTablesWhitelist.reset` (lines 193-212): `remove_all`, create the
chain, append the catch-all DROP, insert the loopback ACCEPT, then
check-and-append both forwarding rules into INPUT. -/
def wlReset (cfg : WLCfg) (os : IptOS) : IptOS :=
  guardAppend input_chain (guardAppend input_chain
    (iptablesExec (iptablesExec (iptablesExec (wlRemoveAll cfg os)
      .newChain cfg.chain {}).1
      .append cfg.chain dropAllRule).1
      .insert cfg.chain acceptLoRule).1
    (wlFwdTcpRule cfg)) (wlFwdUdpRule cfg)

/-- Configuration of an `IPTablesBlacklist` (lines 86-91): optional single
port list, chain name, optional protocol. -/
structure BLCfg where
  ports : Option (List String)
  chain : String
  protocol : Option String
deriving DecidableEq, Repr

/-- The per-IP DROP rule of `IPTablesBlacklist.add` (line 95). -/
def blDropRule (cfg : BLCfg) (ip : String) : Rule :=
  { protocol := cfg.protocol, ports := cfg.ports, target := some "DROP", ip := some ip }

/-- The forwarding rule from INPUT to the blacklist chain (line 109). -/
def blFwdRule (cfg : BLCfg) : Rule :=
  { protocol := cfg.protocol, ports := cfg.ports, target := some cfg.chain }

/-- `IPTablesBlacklist.add` (lines 93-97): check-then-append. -/
def blAdd (cfg : BLCfg) (os : IptOS) (ip : String) : IptOS :=
  guardAppend cfg.chain os (blDropRule cfg ip)

/-- `IPTablesBlacklist.remove` (lines 99-105): unconditional delete. -/
def blRemove (cfg : BLCfg) (os : IptOS) (ip : String) : IptOS :=
  (iptablesExec os .delete cfg.chain (blDropRule cfg ip)).1

/-- `IPTablesBlacklist.remove_all` (lines 107-118): delete the forwarding
rule from INPUT, flush the chain, delete the chain. -/
def blRemoveAll (cfg : BLCfg) (os : IptOS) : IptOS :=
  (iptablesExec (iptablesExec (iptablesExec os
    .delete input_chain (blFwdRule cfg)).1
    .flushChain cfg.chain {}).1
    .deleteChain cfg.chain {}).1

/-- `IPTablesBlacklist.reset` (lines 120-130): `remove_all`, create the
chain, then check-and-insert the forwarding rule into INPUT. -/
def blReset (cfg : BLCfg) (os : IptOS) : IptOS :=
  guardInsert input_chain
    (iptablesExec (blRemoveAll cfg os) .newChain cfg.chain {}).1
    (blFwdRule cfg)

/-- One Windows firewall rule as created through `FirewallUtils.add_rule`
(windows_firewall.py): rule-group name, remote ip, localport string,
protocol, action. -/
structure WinRule where
  name : String
  ip : String
  ports : String
  protocol : String
  action : String
deriving DecidableEq, Repr

/-- The Windows firewall process state: the two membership caches
(`Rulelist.IPs` of the whitelist and of the blacklist) and the live
`netsh advfirewall` rule set. -/
structure WinState where
  wlIPs : Finset String
  blIPs : Finset String
  rules : Finset WinRule
deriving DecidableEq

/-- Modelled from the spec: `FirewallUtils.add_rule` (src/firewall/utils.py
is not in the sources; spec section 6 describes it as a named-rule-group
add operation) inserts one rule into the live rule set. -/
def addWinRule (s : Finset WinRule) (r : WinRule) : Finset WinRule :=
  insert r s

/-- Modelled from the spec: `FirewallUtils.remove_rule` removes the matching
rule from the live rule set. -/
def removeWinRule (s : Finset WinRule) (r : WinRule) : Finset WinRule :=
  s.erase r

/-- Modelled from the spec: `FirewallUtils.remove_rules_by_name` removes
every rule of the named group. -/
def removeWinRulesByName (s : Finset WinRule) (n : String) : Finset WinRule :=
  s.filter (fun r => r.name ≠ n)

/-- Configuration of the Windows `Whitelist` policy: its (offset-qualified)
rule-group name and the `'%d,%d' % (gameserver1, gameserver2)` port
string (lines 97-105, 117). -/
structure WinWLCfg where
  name : String
  ports : String
deriving DecidableEq, Repr

/-- Configuration of the Windows `Blacklist` policy: its rule-group name and
the `client2login` port string (lines 51-59, 90). -/
structure WinBLCfg where
  name : String
  port : String
deriving DecidableEq, Repr

/-- The whitelist rule for one IP and protocol (line 117). -/
def winWlRule (cfg : WinWLCfg) (ip protocol : String) : WinRule :=
  { name := cfg.name, ip := ip, ports := cfg.ports, protocol := protocol, action := "allow" }

/-- The blacklist rule for one IP (line 90). -/
def winBlRule (cfg : WinBLCfg) (ip : String) : WinRule :=
  { name := cfg.name, ip := ip, ports := cfg.port, protocol := "tcp", action := "block" }

/-- Windows `Whitelist.add` (lines 114-117): if the ip is not in the
membership cache, track it and add one rule per protocol, udp then tcp. -/
def winWlAdd (cfg : WinWLCfg) (s : WinState) (ip : String) : WinState :=
  if ip ∈ s.wlIPs then s
  else
    { s with
      wlIPs := insert ip s.wlIPs,
      rules := addWinRule (addWinRule s.rules (winWlRule cfg ip "udp")) (winWlRule cfg ip "tcp") }

/-- Windows `Whitelist.remove` (lines 119-122): if the ip is tracked,
untrack it and remove one rule per protocol, udp then tcp. -/
def winWlRemove (cfg : WinWLCfg) (s : WinState) (ip : String) : WinState :=
  if ip ∈ s.wlIPs then
    { s with
      wlIPs := s.wlIPs.erase ip,
      rules := removeWinRule (removeWinRule s.rules (winWlRule cfg ip "udp")) (winWlRule cfg ip "tcp") }
  else s

/-- Windows `Whitelist.reset` (lines 110-112): only `remove_all()`, deleting
the live rules of the group; the membership cache is left untouched and no
default or loopback rule is created. -/
def winWlReset (cfg : WinWLCfg) (s : WinState) : WinState :=
  { s with rules := removeWinRulesByName s.rules cfg.name }

/-- Windows `Blacklist.add` (lines 88-90). -/
def winBlAdd (cfg : WinBLCfg) (s : WinState) (ip : String) : WinState :=
  if ip ∈ s.blIPs then s
  else
    { s with
      blIPs := insert ip s.blIPs,
      rules := addWinRule s.rules (winBlRule cfg ip) }

/-- Windows `Blacklist.remove` (lines 92-94). -/
def winBlRemove (cfg : WinBLCfg) (s : WinState) (ip : String) : WinState :=
  if ip ∈ s.blIPs then
    { s with
      blIPs := s.blIPs.erase ip,
      rules := removeWinRule s.rules (winBlRule cfg ip) }
  else s

/-- The initial allow rule installed by Windows `Blacklist.reset`
(lines 64-86): localport client2login, action allow, no remote ip (any). -/
def winBlInitRule (cfg : WinBLCfg) : WinRule :=
  { name := cfg.name, ip := "any", ports := cfg.port, protocol := "tcp", action := "allow" }

/-- Windows `Blacklist.reset` (lines 64-86): remove the group's rules, then
add the initial allow rule. The membership cache is left untouched. -/
def winBlReset (cfg : WinBLCfg) (s : WinState) : WinState :=
  { s with rules := addWinRule (removeWinRulesByName s.rules cfg.name) (winBlInitRule cfg) }

/-- One command taken from the engine queue:
`{'list': ..., 'action': ..., 'ip': ...}`. -/
structure Command where
  list : String
  action : String
  ip : String
deriving DecidableEq, Repr

/-- Split a character list on '.', like Python's `split('.')`. -/
def splitDot : List Char → List (List Char)
  | [] => [[]]
  | c :: cs =>
    if c = '.' then [] :: splitDot cs
    else
      match splitDot cs with
      | [] => [[c]]
      | g :: gs => (c :: g) :: gs

/-- One decimal octet of a dotted-quad IPv4 address: one to three digits,
no leading zero, value at most 255. -/
def parseOctet (s : List Char) : Option Nat :=
  if s.length = 0 ∨ s.length > 3 then none
  else if ¬ s.all Char.isDigit then none
  else if s.length > 1 ∧ s.headD '0' = '0' then none
  else
    let n := s.foldl (fun acc c => acc * 10 + (c.toNat - 48)) 0
    if n ≤ 255 then some n else none

/-- Render a natural number below 1000 as decimal digits. -/
def renderNat (n : Nat) : List Char :=
  (if n ≥ 100 then [Char.ofNat (n / 100 % 10 + 48)] else []) ++
    (if n ≥ 10 then [Char.ofNat (n / 10 % 10 + 48)] else []) ++
    [Char.ofNat (n % 10 + 48)]

/-- Canonical dotted-quad rendering of a list of octet values. -/
def renderIp (ns : List Nat) : String :=
  String.mk (match ns.map renderNat with
    | [] => []
    | g :: gs => g ++ gs.foldr (fun h acc => '.' :: h ++ acc) [])

/-- Modelled from the spec: the engine normalizes `ip` "to canonical textual
form (rejecting malformed addresses)" via Python's `ipaddress.ip_address`
(the standard library, not in the sources). This is its IPv4 fragment:
strict dotted-quad, no leading zeros, each octet at most 255, re-rendered
canonically; IPv6 is out of scope per the spec (section 1 non-goals). -/
def ip_address (s : String) : Option String :=
  match (splitDot s.toList).mapM parseOctet with
  | some ns => if ns.length = 4 then some (renderIp ns) else none
  | none => none

/-- `IPTablesFirewall.run` loop body (lines 296-312) for one command: the
`lists` dict lookup, the action dispatch with `str(ip_address(...))`
normalization, and the enclosing try/except which turns any failure
(unknown list key, unparsable ip) into a log line, leaving the state
unchanged and the loop running. -/
def iptRunStep (wcfg : WLCfg) (bcfg : BLCfg) (os : IptOS) (cmd : Command) : IptOS :=
  if cmd.list = "whitelist" then
    if cmd.action = "reset" then wlReset wcfg os
    else if cmd.action = "add" then
      match ip_address cmd.ip with
      | some ip => wlAdd wcfg os ip
      | none => os
    else if cmd.action = "remove" then
      match ip_address cmd.ip with
      | some ip => wlRemove wcfg os ip
      | none => os
    else os
  else if cmd.list = "blacklist" then
    if cmd.action = "reset" then blReset bcfg os
    else if cmd.action = "add" then
      match ip_address cmd.ip with
      | some ip => blAdd bcfg os ip
      | none => os
    else if cmd.action = "remove" then
      match ip_address cmd.ip with
      | some ip => blRemove bcfg os ip
      | none => os
    else os
  else os

/-- The iptables engine's dispatch loop over a finite command prefix. -/
def iptRunList (wcfg : WLCfg) (bcfg : BLCfg) (os : IptOS) : List Command → IptOS
  | [] => os
  | cmd :: rest => iptRunList wcfg bcfg (iptRunStep wcfg bcfg os cmd) rest

/-- Windows `Firewall.run` loop body (lines 160-173) for one command. There
is no try/except around the body and no ip validation: `lists[command['list']]`
with an unknown list name raises an uncaught KeyError (modelled as `.error`),
and `command['ip']` is passed verbatim to the policy. An unknown action is
only logged. -/
def winRunStep (wcfg : WinWLCfg) (bcfg : WinBLCfg) (s : WinState) (cmd : Command) :
    Except String WinState :=
  if cmd.list = "whitelist" then
    if cmd.action = "reset" then .ok (winWlReset wcfg s)
    else if cmd.action = "add" then .ok (winWlAdd wcfg s cmd.ip)
    else if cmd.action = "remove" then .ok (winWlRemove wcfg s cmd.ip)
    else .ok s
  else if cmd.list = "blacklist" then
    if cmd.action = "reset" then .ok (winBlReset bcfg s)
    else if cmd.action = "add" then .ok (winBlAdd bcfg s cmd.ip)
    else if cmd.action = "remove" then .ok (winBlRemove bcfg s cmd.ip)
    else .ok s
  else .error ("KeyError: " ++ cmd.list)

/-- The Windows engine's dispatch loop over a finite command prefix; an
uncaught exception aborts the loop. -/
def winRunList (wcfg : WinWLCfg) (bcfg : WinBLCfg) (s : WinState) :
    List Command → Except String WinState
  | [] => .ok s
  | cmd :: rest =>
    match winRunStep wcfg bcfg s cmd with
    | .ok s1 => winRunList wcfg bcfg s1 rest
    | .error e => .error e

/-- The `Banlist` object's mutable state (lines 217-222): the cached banned
set and the last observed file modification time, initially 0. -/
structure BanlistState where
  banned : Finset String
  last_mtime : Int
deriving DecidableEq

/-- `Banlist.__init__` state (lines 221-222). -/
def banlistInit : BanlistState := { banned := ∅, last_mtime := 0 }

/-- `Banlist.start` (lines 224-228): one synchronous `update_banlist` pass.
It never touches `last_mtime`. (The `blacklist.reset()` call and the
spawning of the poll loop act on other state.) -/
def banlistStart (file : Option (List String)) (s : BanlistState) :
    BanlistState × List BanOp :=
  ({ banned := (update_banlist s.banned file).2, last_mtime := s.last_mtime },
    (update_banlist s.banned file).1)

/-- One iteration of `Banlist.poll` (lines 230-239): when the file exists
and its mtime differs from the last observed value (plain inequality), the
observed mtime is recorded and `update_banlist` re-parses and reconciles;
otherwise nothing happens. -/
def banlistPollTick (fileExists : Bool) (mtime : Int) (lines : List String)
    (s : BanlistState) : BanlistState × List BanOp :=
  if fileExists then
    if mtime ≠ s.last_mtime then
      ({ banned := (update_banlist s.banned (some lines)).2, last_mtime := mtime },
        (update_banlist s.banned (some lines)).1)
    else (s, [])
  else (s, [])

/-- A small concrete Linux whitelist configuration, for concrete instances. -/
def demoWL : WLCfg := { ports := ["7777"], chain := "taserver-whitelist-0" }

/-- A small concrete Linux blacklist configuration, for concrete instances. -/
def demoBL : BLCfg :=
  { ports := some ["9000"], chain := "taserver-blacklist", protocol := some "tcp" }

/-- A small concrete Windows whitelist configuration, for concrete instances. -/
def demoWinWL : WinWLCfg := { name := "wl", ports := "7777,7778" }

/-- A small concrete Windows blacklist configuration, for concrete instances. -/
def demoWinBL : WinBLCfg := { name := "bl", port := "9000" }

theorem banOp_remove_injective : Function.Injective BanOp.remove :=
  fun a b h => by injection h

theorem banOp_add_injective : Function.Injective BanOp.add :=
  fun a b h => by injection h

theorem count_sort (s : Finset String) (a : String) :
    (s.sort (· ≤ ·)).count a = if a ∈ s then 1 else 0 := by
  by_cases h : a ∈ s
  · rw [if_pos h]
    exact List.count_eq_one_of_mem (s.sort_nodup _) ((Finset.mem_sort _).mpr h)
  · rw [if_neg h]
    exact List.count_eq_zero_of_not_mem fun hm => h ((Finset.mem_sort _).mp hm)

theorem pyStrip_eq_nil (l : List Char) (h : ∀ x ∈ l, Char.isWhitespace x) :
    pyStrip l = [] := by
  unfold pyStrip
  rw [List.dropWhile_eq_nil_iff.mpr h]
  rfl

theorem count_remove_in_adds (l : List String) (x : String) :
    (l.map BanOp.add).count (BanOp.remove x) = 0 :=
  List.count_eq_zero_of_not_mem fun hm => by
    rcases List.mem_map.mp hm with ⟨a, _, h⟩
    exact BanOp.noConfusion h

theorem count_add_in_removes (l : List String) (x : String) :
    (l.map BanOp.remove).count (BanOp.add x) = 0 :=
  List.count_eq_zero_of_not_mem fun hm => by
    rcases List.mem_map.mp hm with ⟨a, _, h⟩
    exact BanOp.noConfusion h

/-- Claim C1: `update_banlist` issues exactly one `remove(ip)` for every ip
in `cached − newSet`, exactly one `add(ip)` for every ip in
`newSet − cached`, all removals before any addition, never touches an ip
present in both sets, and replaces the cache with `newSet` (where `newSet`
is the set parsed from the new file contents). -/
theorem C1_reconcile_diff (cached : Finset String) (lines : List String) :
    (∀ ip, (update_banlist cached (some lines)).1.count (BanOp.remove ip) =
      if ip ∈ cached \ parseBanfile lines then 1 else 0) ∧
    (∀ ip, (update_banlist cached (some lines)).1.count (BanOp.add ip) =
      if ip ∈ parseBanfile lines \ cached then 1 else 0) ∧
    (∃ rs as, (update_banlist cached (some lines)).1 = rs ++ as ∧
      (∀ op ∈ rs, ∃ ip, op = BanOp.remove ip) ∧
      (∀ op ∈ as, ∃ ip, op = BanOp.add ip)) ∧
    (∀ ip, ip ∈ cached → ip ∈ parseBanfile lines →
      BanOp.remove ip ∉ (update_banlist cached (some lines)).1 ∧
      BanOp.add ip ∉ (update_banlist cached (some lines)).1) ∧
    (update_banlist cached (some lines)).2 = parseBanfile lines := by
  have htr : (update_banlist cached (some lines)).1 =
      ((cached \ parseBanfile lines).sort (· ≤ ·)).map BanOp.remove ++
        ((parseBanfile lines \ cached).sort (· ≤ ·)).map BanOp.add := rfl
  have hrem : ∀ ip, (update_banlist cached (some lines)).1.count (BanOp.remove ip) =
      if ip ∈ cached \ parseBanfile lines then 1 else 0 := by
    intro ip
    rw [htr, List.count_append,
      List.count_map_of_injective _ BanOp.remove banOp_remove_injective,
      count_remove_in_adds, count_sort, add_zero]
  have hadd : ∀ ip, (update_banlist cached (some lines)).1.count (BanOp.add ip) =
      if ip ∈ parseBanfile lines \ cached then 1 else 0 := by
    intro ip
    rw [htr, List.count_append,
      List.count_map_of_injective _ BanOp.add banOp_add_injective,
      count_add_in_removes, count_sort, zero_add]
  refine ⟨hrem, hadd, ?_, ?_, rfl⟩
  · refine ⟨_, _, htr, ?_, ?_⟩
    · intro op hop
      rcases List.mem_map.mp hop with ⟨a, _, h⟩
      exact ⟨a, h.symm⟩
    · intro op hop
      rcases List.mem_map.mp hop with ⟨a, _, h⟩
      exact ⟨a, h.symm⟩
  · intro ip h1 h2
    constructor
    · rw [← List.count_eq_zero, hrem ip, if_neg]
      simp [h2]
    · rw [← List.count_eq_zero, hadd ip, if_neg]
      simp [h1]

/-- Claim C1 witness: with cache `{A, B}` and a file yielding `{B, C}`,
reconcile issues `remove(A)` once, `add(C)` once, and never touches `B`. -/
theorem C1_reconcile_diff_witness :
    (update_banlist {"A", "B"} (some ["B", "C"])).1.count (BanOp.remove "A") = 1 ∧
    (update_banlist {"A", "B"} (some ["B", "C"])).1.count (BanOp.add "C") = 1 ∧
    BanOp.remove "B" ∉ (update_banlist {"A", "B"} (some ["B", "C"])).1 ∧
    BanOp.add "B" ∉ (update_banlist {"A", "B"} (some ["B", "C"])).1 ∧
    (update_banlist {"A", "B"} (some ["B", "C"])).2 = {"B", "C"} := by
  have h := C1_reconcile_diff {"A", "B"} ["B", "C"]
  have hb := h.2.2.2.1 "B" (by decide) (by decide)
  refine ⟨?_, ?_, hb.1, hb.2, ?_⟩
  · rw [h.1 "A", if_pos (by decide)]
  · rw [h.2.1 "C", if_pos (by decide)]
  · rw [h.2.2.2.2]
    decide

/-- Claim C6: the Linux argument builder emits no port filter for absent
ports, a single `--dport` match for one port, a comma-joined multiport
match for two or more, and fails (exit 1) without invoking the OS on a
present-but-empty port list. -/
theorem C6_port_encoding (command chain : String) (r : Rule) :
    (r.ports = none → iptables_args command chain r =
      some ((["iptables", "-w", command, chain] ++
        (if truthy r.protocol then ["-p", r.protocol.getD ""] else [])) ++
        targetIpArgs r)) ∧
    (∀ p, r.ports = some [p] → iptables_args command chain r =
      some ((["iptables", "-w", command, chain] ++
        (if truthy r.protocol then ["-p", r.protocol.getD ""] else [])) ++
        ["--dport", p] ++ targetIpArgs r)) ∧
    (∀ p q ps, r.ports = some (p :: q :: ps) → iptables_args command chain r =
      some ((["iptables", "-w", command, chain] ++
        (if truthy r.protocol then ["-p", r.protocol.getD ""] else [])) ++
        ["-m", "multiport", "--dport", String.intercalate "," (p :: q :: ps)] ++
        targetIpArgs r)) ∧
    (r.ports = some [] → iptables_args command chain r = none ∧
      ∀ (os : IptOS) (c : Cmd), iptablesExec os c chain r = (os, 1)) := by
  refine ⟨?_, ?_, ?_, ?_⟩
  · intro h; simp [iptables_args, h]
  · intro p h; simp [iptables_args, h]
  · intro p q ps h; simp [iptables_args, h]
  · intro h
    refine ⟨by simp [iptables_args, h], fun os c => ?_⟩
    simp [iptablesExec, h]

/-- Claim C6 witness: a two-port tcp ACCEPT rule builds the multiport form,
and an empty-but-present port list makes every invocation fail with exit 1
and an unchanged kernel state. -/
theorem C6_port_encoding_witness :
    iptables_args "-A" "somechain"
      { protocol := some "tcp", ports := some ["7777", "7778"],
        target := some "ACCEPT", ip := some "1.2.3.4" } =
      some ["iptables", "-w", "-A", "somechain", "-p", "tcp", "-m", "multiport",
        "--dport", "7777,7778", "-j", "ACCEPT", "-s", "1.2.3.4"] ∧
    iptablesExec [(input_chain, [])] .append "somechain"
      { protocol := some "tcp", ports := some [], target := some "ACCEPT",
        ip := none } = ([(input_chain, [])], 1) := by
  constructor
  · rw [(C6_port_encoding "-A" "somechain" _).2.2.1 "7777" "7778" [] rfl]
    decide
  · exact ((C6_port_encoding "-A" "somechain" _).2.2.2 rfl).2 [(input_chain, [])] .append

/-- Claim C7: a ban-file line parses to the text before the first '#'
stripped of whitespace when that is non-empty; whitespace-only lines and
lines starting with '#' yield nothing; entries are de-duplicated by set
semantics; and the concrete line from the spec yields exactly `10.0.0.1`. -/
theorem C7_banfile_line_parsing :
    parseLine "10.0.0.1  # test user" = some "10.0.0.1" ∧
    (∀ l : List Char, l.all Char.isWhitespace → parseLine (String.mk l) = none) ∧
    (∀ rest : List Char, parseLine (String.mk ('#' :: rest)) = none) ∧
    (∀ (l : String) (lines : List String),
      parseBanfile (l :: l :: lines) = parseBanfile (l :: lines)) ∧
    (∀ line : String, parseLine line =
      if (pyStrip (line.toList.takeWhile (fun c => c ≠ '#'))).length > 0 then
        some (String.mk (pyStrip (line.toList.takeWhile (fun c => c ≠ '#'))))
      else none) := by
  have hgen : ∀ line : String, parseLine line =
      if (pyStrip (line.toList.takeWhile (fun c => c ≠ '#'))).length > 0 then
        some (String.mk (pyStrip (line.toList.takeWhile (fun c => c ≠ '#'))))
      else none := fun line => rfl
  refine ⟨by decide, ?_, ?_, ?_, hgen⟩
  · intro l hl
    rw [hgen]
    have hsub : ∀ x ∈ (String.mk l).toList.takeWhile (fun c => c ≠ '#'),
        Char.isWhitespace x := by
      intro x hx
      exact List.all_eq_true.mp hl x ((List.takeWhile_sublist _).subset hx)
    rw [pyStrip_eq_nil _ hsub]
    rfl
  · intro rest
    rw [hgen]
    have hstop : (String.mk ('#' :: rest)).toList.takeWhile (fun c => c ≠ '#') = [] := by
      simp [List.takeWhile]
    rw [hstop]
    rfl
  · intro l lines
    unfold parseBanfile
    cases h : parseLine l <;> simp [h]

/-- Claim C7 witness: a whitespace-only line and a comment-only line yield
no entry, and a duplicated entry is collapsed by set semantics. -/
theorem C7_banfile_line_parsing_witness :
    parseLine (String.mk [' ', ' ']) = none ∧
    parseLine (String.mk ('#' :: " banned".toList)) = none ∧
    parseBanfile ["10.0.0.1", "10.0.0.1"] = parseBanfile ["10.0.0.1"] := by
  have h := C7_banfile_line_parsing
  exact ⟨h.2.1 [' ', ' '] (by decide), h.2.2.1 " banned".toList,
    h.2.2.2.1 "10.0.0.1" []⟩

theorem getChain_nil (c : String) : getChain [] c = none := rfl

theorem getChain_cons_pos (p : String × List Rule) (os : IptOS) (c : String)
    (h : p.1 = c) : getChain (p :: os) c = some p.2 := by
  unfold getChain
  rw [List.find?_cons_of_pos _ (by simp [h])]
  rfl

theorem getChain_cons_neg (p : String × List Rule) (os : IptOS) (c : String)
    (h : ¬ p.1 = c) : getChain (p :: os) c = getChain os c := by
  unfold getChain
  rw [List.find?_cons_of_neg _ (by simp [h])]

theorem setChain_cons (p : String × List Rule) (os : IptOS) (c : String)
    (rs : List Rule) :
    setChain (p :: os) c rs = (if p.1 = c then (c, rs) else p) :: setChain os c rs := by
  simp [setChain]

theorem getChain_setChain_self (os : IptOS) (c : String) (rs : List Rule)
    (h : (getChain os c).isSome) : getChain (setChain os c rs) c = some rs := by
  induction os with
  | nil => simp [getChain] at h
  | cons p os ih =>
    rw [setChain_cons]
    by_cases hp : p.1 = c
    · rw [if_pos hp, getChain_cons_pos _ _ _ rfl]
    · rw [if_neg hp, getChain_cons_neg _ _ _ hp]
      rw [getChain_cons_neg _ _ _ hp] at h
      exact ih h

theorem getChain_setChain_ne (os : IptOS) (c c' : String) (rs : List Rule)
    (h : c' ≠ c) : getChain (setChain os c rs) c' = getChain os c' := by
  induction os with
  | nil => rfl
  | cons p os ih =>
    rw [setChain_cons]
    by_cases hp : p.1 = c
    · have hne : ¬ c = c' := fun hc => h hc.symm
      rw [if_pos hp, getChain_cons_neg _ _ _ hne,
        getChain_cons_neg _ _ _ (fun hq => hne (hp ▸ hq)), ih]
    · rw [if_neg hp]
      by_cases hq : p.1 = c'
      · rw [getChain_cons_pos _ _ _ hq, getChain_cons_pos _ _ _ hq]
      · rw [getChain_cons_neg _ _ _ hq, getChain_cons_neg _ _ _ hq, ih]

theorem getChain_createChain_self (os : IptOS) (c : String)
    (h : getChain os c = none) : getChain (createChain os c) c = some [] := by
  induction os with
  | nil => exact getChain_cons_pos (c, []) [] c rfl
  | cons p os ih =>
    by_cases hp : p.1 = c
    · rw [getChain_cons_pos _ _ _ hp] at h
      exact absurd h (by simp)
    · rw [getChain_cons_neg _ _ _ hp] at h
      show getChain (p :: (createChain os c)) c = some []
      rw [getChain_cons_neg _ _ _ hp]
      exact ih h

theorem getChain_createChain_ne (os : IptOS) (c c' : String) (h : c' ≠ c) :
    getChain (createChain os c) c' = getChain os c' := by
  induction os with
  | nil =>
    show getChain [(c, [])] c' = none
    rw [getChain_cons_neg _ _ _ (fun hc => h hc.symm)]
    rfl
  | cons p os ih =>
    show getChain (p :: (createChain os c)) c' = getChain (p :: os) c'
    by_cases hp : p.1 = c'
    · rw [getChain_cons_pos _ _ _ hp, getChain_cons_pos _ _ _ hp]
    · rw [getChain_cons_neg _ _ _ hp, getChain_cons_neg _ _ _ hp, ih]

theorem getChain_dropChain_self (os : IptOS) (c : String) :
    getChain (dropChain os c) c = none := by
  induction os with
  | nil => rfl
  | cons p os ih =>
    by_cases hp : p.1 = c
    · have : dropChain (p :: os) c = dropChain os c := by
        simp [dropChain, hp]
      rw [this]
      exact ih
    · have : dropChain (p :: os) c = p :: dropChain os c := by
        simp [dropChain, hp]
      rw [this, getChain_cons_neg _ _ _ hp]
      exact ih

theorem getChain_dropChain_ne (os : IptOS) (c c' : String) (h : c' ≠ c) :
    getChain (dropChain os c) c' = getChain os c' := by
  induction os with
  | nil => rfl
  | cons p os ih =>
    by_cases hp : p.1 = c
    · have he : dropChain (p :: os) c = dropChain os c := by
        simp [dropChain, hp]
      have hq : ¬ p.1 = c' := fun hq => h (hq ▸ hp ▸ rfl)
      rw [he, getChain_cons_neg _ _ _ hq, ih]
    · have he : dropChain (p :: os) c = p :: dropChain os c := by
        simp [dropChain, hp]
      rw [he]
      by_cases hq : p.1 = c'
      · rw [getChain_cons_pos _ _ _ hq, getChain_cons_pos _ _ _ hq]
      · rw [getChain_cons_neg _ _ _ hq, getChain_cons_neg _ _ _ hq, ih]

theorem exec_invalid (os : IptOS) (c : Cmd) (chain : String) (r : Rule)
    (h : r.ports = some []) : iptablesExec os c chain r = (os, 1) := by
  simp [iptablesExec, h]

theorem exec_check_mem (os : IptOS) (chain : String) (r : Rule) (rs : List Rule)
    (hp : r.ports ≠ some []) (h : getChain os chain = some rs) (hm : r ∈ rs) :
    iptablesExec os .check chain r = (os, 0) := by
  simp [iptablesExec, hp, h, hm]

theorem exec_check_not_mem (os : IptOS) (chain : String) (r : Rule) (rs : List Rule)
    (hp : r.ports ≠ some []) (h : getChain os chain = some rs) (hm : r ∉ rs) :
    iptablesExec os .check chain r = (os, 1) := by
  simp [iptablesExec, hp, h, hm]

theorem exec_check_none (os : IptOS) (chain : String) (r : Rule)
    (hp : r.ports ≠ some []) (h : getChain os chain = none) :
    iptablesExec os .check chain r = (os, 1) := by
  simp [iptablesExec, hp, h]

theorem exec_insert_some (os : IptOS) (chain : String) (r : Rule) (rs : List Rule)
    (hp : r.ports ≠ some []) (h : getChain os chain = some rs) :
    iptablesExec os .insert chain r = (setChain os chain (r :: rs), 0) := by
  simp [iptablesExec, hp, h]

theorem exec_insert_none (os : IptOS) (chain : String) (r : Rule)
    (hp : r.ports ≠ some []) (h : getChain os chain = none) :
    iptablesExec os .insert chain r = (os, 1) := by
  simp [iptablesExec, hp, h]

theorem exec_append_some (os : IptOS) (chain : String) (r : Rule) (rs : List Rule)
    (hp : r.ports ≠ some []) (h : getChain os chain = some rs) :
    iptablesExec os .append chain r = (setChain os chain (rs ++ [r]), 0) := by
  simp [iptablesExec, hp, h]

theorem exec_append_none (os : IptOS) (chain : String) (r : Rule)
    (hp : r.ports ≠ some []) (h : getChain os chain = none) :
    iptablesExec os .append chain r = (os, 1) := by
  simp [iptablesExec, hp, h]

theorem exec_delete_mem (os : IptOS) (chain : String) (r : Rule) (rs : List Rule)
    (hp : r.ports ≠ some []) (h : getChain os chain = some rs) (hm : r ∈ rs) :
    iptablesExec os .delete chain r = (setChain os chain (rs.erase r), 0) := by
  simp [iptablesExec, hp, h, hm]

theorem exec_delete_not_mem (os : IptOS) (chain : String) (r : Rule) (rs : List Rule)
    (hp : r.ports ≠ some []) (h : getChain os chain = some rs) (hm : r ∉ rs) :
    iptablesExec os .delete chain r = (os, 1) := by
  simp [iptablesExec, hp, h, hm]

theorem exec_delete_none (os : IptOS) (chain : String) (r : Rule)
    (hp : r.ports ≠ some []) (h : getChain os chain = none) :
    iptablesExec os .delete chain r = (os, 1) := by
  simp [iptablesExec, hp, h]

theorem exec_newChain_some (os : IptOS) (chain : String) (r : Rule) (rs : List Rule)
    (hp : r.ports ≠ some []) (h : getChain os chain = some rs) :
    iptablesExec os .newChain chain r = (os, 1) := by
  simp [iptablesExec, hp, h]

theorem exec_newChain_none (os : IptOS) (chain : String) (r : Rule)
    (hp : r.ports ≠ some []) (h : getChain os chain = none) :
    iptablesExec os .newChain chain r = (createChain os chain, 0) := by
  simp [iptablesExec, hp, h]

theorem exec_flush_some (os : IptOS) (chain : String) (r : Rule) (rs : List Rule)
    (hp : r.ports ≠ some []) (h : getChain os chain = some rs) :
    iptablesExec os .flushChain chain r = (setChain os chain [], 0) := by
  simp [iptablesExec, hp, h]

theorem exec_flush_none (os : IptOS) (chain : String) (r : Rule)
    (hp : r.ports ≠ some []) (h : getChain os chain = none) :
    iptablesExec os .flushChain chain r = (os, 1) := by
  simp [iptablesExec, hp, h]

theorem exec_deleteChain_none (os : IptOS) (chain : String) (r : Rule)
    (hp : r.ports ≠ some []) (h : getChain os chain = none) :
    iptablesExec os .deleteChain chain r = (os, 1) := by
  simp [iptablesExec, hp, h]

theorem exec_deleteChain_ok (os : IptOS) (chain : String) (r : Rule) (rs : List Rule)
    (hp : r.ports ≠ some []) (h : getChain os chain = some rs) (he : rs = [])
    (hr : referenced os chain = false) :
    iptablesExec os .deleteChain chain r = (dropChain os chain, 0) := by
  simp [iptablesExec, hp, h, he, hr]

theorem exec_deleteChain_fail (os : IptOS) (chain : String) (r : Rule) (rs : List Rule)
    (hp : r.ports ≠ some []) (h : getChain os chain = some rs)
    (hf : ¬(rs = [] ∧ ¬ referenced os chain)) :
    iptablesExec os .deleteChain chain r = (os, 1) := by
  simp only [iptablesExec, if_neg hp, h]
  rw [if_neg hf]

theorem exec_frame (os : IptOS) (c : Cmd) (chain : String) (r : Rule) (c' : String)
    (h : c' ≠ chain) : getChain (iptablesExec os c chain r).1 c' = getChain os c' := by
  unfold iptablesExec
  by_cases hp : r.ports = some []
  · simp [hp]
  · simp only [if_neg hp]
    cases c <;> cases hg : getChain os chain <;>
      simp only [getChain_setChain_ne _ _ _ _ h, getChain_createChain_ne _ _ _ h,
        getChain_dropChain_ne _ _ _ h] <;>
      first
      | rfl
      | (split <;>
          simp only [getChain_setChain_ne _ _ _ _ h, getChain_createChain_ne _ _ _ h,
            getChain_dropChain_ne _ _ _ h])

theorem exec_preserves_isSome (os : IptOS) (c : Cmd) (chain : String) (r : Rule)
    (x : String) (hx : (getChain os x).isSome) (hc : c ≠ .deleteChain) :
    (getChain (iptablesExec os c chain r).1 x).isSome := by
  by_cases h : x = chain
  · subst h
    unfold iptablesExec
    by_cases hp : r.ports = some []
    · simpa [hp] using hx
    · simp only [if_neg hp]
      cases c <;> cases hg : getChain os x <;>
        simp_all [getChain_setChain_self, getChain_createChain_self] <;>
        split <;> simp_all [getChain_setChain_self]
  · rw [exec_frame _ _ _ _ _ h]
    exact hx

theorem wlRules_ne (cfg : WLCfg) (ip : String) : wlUdpRule cfg ip ≠ wlTcpRule cfg ip := by
  simp [wlTcpRule, wlUdpRule]

theorem wlTcpRule_ports (cfg : WLCfg) (ip : String) (h : cfg.ports ≠ []) :
    (wlTcpRule cfg ip).ports ≠ some [] := by
  simp [wlTcpRule, h]

theorem wlUdpRule_ports (cfg : WLCfg) (ip : String) (h : cfg.ports ≠ []) :
    (wlUdpRule cfg ip).ports ≠ some [] := by
  simp [wlUdpRule, h]

theorem guardInsert_invalid (c : String) (os : IptOS) (r : Rule)
    (h : r.ports = some []) : guardInsert c os r = os := by
  simp [guardInsert, exec_invalid _ _ _ _ h]

theorem guardInsert_none (c : String) (os : IptOS) (r : Rule)
    (hp : r.ports ≠ some []) (h : getChain os c = none) : guardInsert c os r = os := by
  simp [guardInsert, exec_check_none _ _ _ hp h, exec_insert_none _ _ _ hp h]

theorem guardInsert_mem (c : String) (os : IptOS) (r : Rule) (rs : List Rule)
    (hp : r.ports ≠ some []) (h : getChain os c = some rs) (hm : r ∈ rs) :
    guardInsert c os r = os := by
  simp [guardInsert, exec_check_mem _ _ _ _ hp h hm]

theorem guardInsert_not_mem (c : String) (os : IptOS) (r : Rule) (rs : List Rule)
    (hp : r.ports ≠ some []) (h : getChain os c = some rs) (hm : r ∉ rs) :
    guardInsert c os r = setChain os c (r :: rs) := by
  simp [guardInsert, exec_check_not_mem _ _ _ _ hp h hm, exec_insert_some _ _ _ _ hp h]

theorem guardAppend_invalid (c : String) (os : IptOS) (r : Rule)
    (h : r.ports = some []) : guardAppend c os r = os := by
  simp [guardAppend, exec_invalid _ _ _ _ h]

theorem guardAppend_none (c : String) (os : IptOS) (r : Rule)
    (hp : r.ports ≠ some []) (h : getChain os c = none) : guardAppend c os r = os := by
  simp [guardAppend, exec_check_none _ _ _ hp h, exec_append_none _ _ _ hp h]

theorem guardAppend_mem (c : String) (os : IptOS) (r : Rule) (rs : List Rule)
    (hp : r.ports ≠ some []) (h : getChain os c = some rs) (hm : r ∈ rs) :
    guardAppend c os r = os := by
  simp [guardAppend, exec_check_mem _ _ _ _ hp h hm]

theorem guardAppend_not_mem (c : String) (os : IptOS) (r : Rule) (rs : List Rule)
    (hp : r.ports ≠ some []) (h : getChain os c = some rs) (hm : r ∉ rs) :
    guardAppend c os r = setChain os c (rs ++ [r]) := by
  simp [guardAppend, exec_check_not_mem _ _ _ _ hp h hm, exec_append_some _ _ _ _ hp h]

theorem guardInsert_frame (c : String) (os : IptOS) (r : Rule) (c' : String)
    (h : c' ≠ c) : getChain (guardInsert c os r) c' = getChain os c' := by
  unfold guardInsert
  split
  · exact exec_frame _ _ _ _ _ h
  · rfl

theorem guardAppend_frame (c : String) (os : IptOS) (r : Rule) (c' : String)
    (h : c' ≠ c) : getChain (guardAppend c os r) c' = getChain os c' := by
  unfold guardAppend
  split
  · exact exec_frame _ _ _ _ _ h
  · rfl

theorem wlAdd_ports_empty (cfg : WLCfg) (os : IptOS) (ip : String)
    (h : cfg.ports = []) : wlAdd cfg os ip = os := by
  have ht : (wlTcpRule cfg ip).ports = some [] := by simp [wlTcpRule, h]
  have hu : (wlUdpRule cfg ip).ports = some [] := by simp [wlUdpRule, h]
  rw [wlAdd, guardInsert_invalid _ _ _ ht, guardInsert_invalid _ _ _ hu]

theorem wlAdd_no_chain (cfg : WLCfg) (os : IptOS) (ip : String)
    (hp : cfg.ports ≠ []) (h : getChain os cfg.chain = none) : wlAdd cfg os ip = os := by
  rw [wlAdd, guardInsert_none _ _ _ (wlTcpRule_ports cfg ip hp) h,
    guardInsert_none _ _ _ (wlUdpRule_ports cfg ip hp) h]

theorem wlAdd_already (cfg : WLCfg) (os : IptOS) (ip : String) (rs : List Rule)
    (hp : cfg.ports ≠ []) (h : getChain os cfg.chain = some rs)
    (ht : wlTcpRule cfg ip ∈ rs) (hu : wlUdpRule cfg ip ∈ rs) :
    wlAdd cfg os ip = os := by
  rw [wlAdd, guardInsert_mem _ _ _ _ (wlTcpRule_ports cfg ip hp) h ht,
    guardInsert_mem _ _ _ _ (wlUdpRule_ports cfg ip hp) h hu]

theorem wlAdd_tracked (cfg : WLCfg) (os : IptOS) (ip : String) (rs : List Rule)
    (hp : cfg.ports ≠ []) (h : getChain os cfg.chain = some rs) :
    ∃ rs1, getChain (wlAdd cfg os ip) cfg.chain = some rs1 ∧
      wlTcpRule cfg ip ∈ rs1 ∧ wlUdpRule cfg ip ∈ rs1 := by
  have hpt := wlTcpRule_ports cfg ip hp
  have hpu := wlUdpRule_ports cfg ip hp
  unfold wlAdd
  by_cases ht : wlTcpRule cfg ip ∈ rs
  · rw [guardInsert_mem _ _ _ _ hpt h ht]
    by_cases hu : wlUdpRule cfg ip ∈ rs
    · rw [guardInsert_mem _ _ _ _ hpu h hu]
      exact ⟨rs, h, ht, hu⟩
    · rw [guardInsert_not_mem _ _ _ _ hpu h hu]
      exact ⟨wlUdpRule cfg ip :: rs, getChain_setChain_self _ _ _ (by simp [h]),
        List.mem_cons_of_mem _ ht, List.mem_cons_self _ _⟩
  · rw [guardInsert_not_mem _ _ _ _ hpt h ht]
    have h1 : getChain (setChain os cfg.chain (wlTcpRule cfg ip :: rs)) cfg.chain =
        some (wlTcpRule cfg ip :: rs) := getChain_setChain_self _ _ _ (by simp [h])
    by_cases hu : wlUdpRule cfg ip ∈ wlTcpRule cfg ip :: rs
    · rw [guardInsert_mem _ _ _ _ hpu h1 hu]
      exact ⟨_, h1, List.mem_cons_self _ _, hu⟩
    · rw [guardInsert_not_mem _ _ _ _ hpu h1 hu]
      exact ⟨wlUdpRule cfg ip :: wlTcpRule cfg ip :: rs,
        getChain_setChain_self _ _ _ (by simp [h1]),
        List.mem_cons_of_mem _ (List.mem_cons_self _ _), List.mem_cons_self _ _⟩

theorem blDropRule_ports (cfg : BLCfg) (ip : String) (h : cfg.ports ≠ some []) :
    (blDropRule cfg ip).ports ≠ some [] := h

theorem blAdd_tracked (cfg : BLCfg) (os : IptOS) (ip : String) (rs : List Rule)
    (hp : cfg.ports ≠ some []) (h : getChain os cfg.chain = some rs) :
    ∃ rs1, getChain (blAdd cfg os ip) cfg.chain = some rs1 ∧ blDropRule cfg ip ∈ rs1 := by
  unfold blAdd
  by_cases hm : blDropRule cfg ip ∈ rs
  · rw [guardAppend_mem _ _ _ _ hp h hm]
    exact ⟨rs, h, hm⟩
  · rw [guardAppend_not_mem _ _ _ _ hp h hm]
    exact ⟨rs ++ [blDropRule cfg ip], getChain_setChain_self _ _ _ (by simp [h]),
      List.mem_append_right _ (List.mem_cons_self _ _)⟩

theorem blAdd_already (cfg : BLCfg) (os : IptOS) (ip : String) (rs : List Rule)
    (hp : cfg.ports ≠ some []) (h : getChain os cfg.chain = some rs)
    (hm : blDropRule cfg ip ∈ rs) : blAdd cfg os ip = os := by
  unfold blAdd
  rw [guardAppend_mem _ _ _ _ hp h hm]

/-- Claim C2: on both backends, for both whitelist and blacklist, `add(ip)`
is idempotent: a second `add(ip)` from the resulting state changes neither
the firewall rules nor the membership cache; and on the Windows backend the
second call is a no-op precisely because the ip is already tracked in the
membership cache. -/
theorem C2_add_idempotent :
    (∀ (cfg : WLCfg) (os : IptOS) (ip : String),
      wlAdd cfg (wlAdd cfg os ip) ip = wlAdd cfg os ip) ∧
    (∀ (cfg : BLCfg) (os : IptOS) (ip : String),
      blAdd cfg (blAdd cfg os ip) ip = blAdd cfg os ip) ∧
    (∀ (cfg : WinWLCfg) (s : WinState) (ip : String),
      winWlAdd cfg (winWlAdd cfg s ip) ip = winWlAdd cfg s ip ∧
      (ip ∈ s.wlIPs → winWlAdd cfg s ip = s)) ∧
    (∀ (cfg : WinBLCfg) (s : WinState) (ip : String),
      winBlAdd cfg (winBlAdd cfg s ip) ip = winBlAdd cfg s ip ∧
      (ip ∈ s.blIPs → winBlAdd cfg s ip = s)) := by
  refine ⟨?_, ?_, ?_, ?_⟩
  · intro cfg os ip
    by_cases hports : cfg.ports = []
    · rw [wlAdd_ports_empty _ _ _ hports, wlAdd_ports_empty _ _ _ hports]
    · cases hg : getChain os cfg.chain with
      | none =>
        rw [wlAdd_no_chain _ _ _ hports hg, wlAdd_no_chain _ _ _ hports hg]
      | some rs =>
        obtain ⟨rs1, h1, ht1, hu1⟩ := wlAdd_tracked cfg os ip rs hports hg
        exact wlAdd_already cfg _ ip rs1 hports h1 ht1 hu1
  · intro cfg os ip
    by_cases hports : cfg.ports = some []
    · unfold blAdd
      rw [guardAppend_invalid _ _ _ hports, guardAppend_invalid _ _ _ hports]
    · cases hg : getChain os cfg.chain with
      | none =>
        have h1 : blAdd cfg os ip = os := by
          unfold blAdd
          rw [guardAppend_none _ _ _ hports hg]
        rw [h1, h1]
      | some rs =>
        obtain ⟨rs1, h1, hm1⟩ := blAdd_tracked cfg os ip rs hports hg
        exact blAdd_already cfg _ ip rs1 hports h1 hm1
  · intro cfg s ip
    constructor
    · by_cases h : ip ∈ s.wlIPs
      · simp [winWlAdd, h]
      · simp [winWlAdd, h]
    · intro h
      simp [winWlAdd, h]
  · intro cfg s ip
    constructor
    · by_cases h : ip ∈ s.blIPs
      · simp [winBlAdd, h]
      · simp [winBlAdd, h]
    · intro h
      simp [winBlAdd, h]

/-- Claim C2 witness: on the Windows whitelist with `1.2.3.4` already
tracked, `add(1.2.3.4)` is a no-op. -/
theorem C2_add_idempotent_witness :
    winWlAdd { name := "wl", ports := "7777,7778" }
      { wlIPs := {"1.2.3.4"}, blIPs := ∅, rules := ∅ } "1.2.3.4" =
      { wlIPs := {"1.2.3.4"}, blIPs := ∅, rules := ∅ } :=
  (C2_add_idempotent.2.2.1 { name := "wl", ports := "7777,7778" }
    { wlIPs := {"1.2.3.4"}, blIPs := ∅, rules := ∅ } "1.2.3.4").2 (by decide)

theorem winWlRule_udp_ne_tcp (cfg : WinWLCfg) (ip : String) :
    winWlRule cfg ip "udp" ≠ winWlRule cfg ip "tcp" := by
  simp [winWlRule]

/-- Claim C8: on both backends, for both whitelist and blacklist, when the
ip is not currently tracked (its rules absent from the chain, resp. the ip
absent from the membership cache and its rules absent from the live rule
set), `add(ip)` followed by `remove(ip)` restores the firewall rules and
the membership cache to exactly their pre-add values. -/
theorem C8_add_remove_symmetry :
    (∀ (cfg : WLCfg) (os : IptOS) (ip : String) (rs : List Rule),
      cfg.ports ≠ [] → getChain os cfg.chain = some rs →
      wlTcpRule cfg ip ∉ rs → wlUdpRule cfg ip ∉ rs →
      ∀ c, getChain (wlRemove cfg (wlAdd cfg os ip) ip) c = getChain os c) ∧
    (∀ (cfg : BLCfg) (os : IptOS) (ip : String) (rs : List Rule),
      cfg.ports ≠ some [] → getChain os cfg.chain = some rs →
      blDropRule cfg ip ∉ rs →
      ∀ c, getChain (blRemove cfg (blAdd cfg os ip) ip) c = getChain os c) ∧
    (∀ (cfg : WinWLCfg) (s : WinState) (ip : String),
      ip ∉ s.wlIPs → winWlRule cfg ip "udp" ∉ s.rules →
      winWlRule cfg ip "tcp" ∉ s.rules →
      winWlRemove cfg (winWlAdd cfg s ip) ip = s) ∧
    (∀ (cfg : WinBLCfg) (s : WinState) (ip : String),
      ip ∉ s.blIPs → winBlRule cfg ip ∉ s.rules →
      winBlRemove cfg (winBlAdd cfg s ip) ip = s) := by
  refine ⟨?_, ?_, ?_, ?_⟩
  · intro cfg os ip rs hp hg ht hu c
    have hpt := wlTcpRule_ports cfg ip hp
    have hpu := wlUdpRule_ports cfg ip hp
    rw [wlAdd, guardInsert_not_mem _ _ _ _ hpt hg ht]
    have h1 : getChain (setChain os cfg.chain (wlTcpRule cfg ip :: rs)) cfg.chain =
        some (wlTcpRule cfg ip :: rs) := getChain_setChain_self _ _ _ (by simp [hg])
    have hu1 : wlUdpRule cfg ip ∉ wlTcpRule cfg ip :: rs := by
      intro hmem
      rcases List.mem_cons.mp hmem with h | h
      · exact wlRules_ne cfg ip h
      · exact hu h
    rw [guardInsert_not_mem _ _ _ _ hpu h1 hu1]
    have h2 : getChain (setChain (setChain os cfg.chain (wlTcpRule cfg ip :: rs))
        cfg.chain (wlUdpRule cfg ip :: wlTcpRule cfg ip :: rs)) cfg.chain =
        some (wlUdpRule cfg ip :: wlTcpRule cfg ip :: rs) :=
      getChain_setChain_self _ _ _ (by simp [h1])
    rw [wlRemove, exec_delete_mem _ _ _ _ hpt h2
      (List.mem_cons_of_mem _ (List.mem_cons_self _ _))]
    have he : (wlUdpRule cfg ip :: wlTcpRule cfg ip :: rs).erase (wlTcpRule cfg ip) =
        wlUdpRule cfg ip :: rs := by
      rw [List.erase_cons_tail (by simp [wlRules_ne cfg ip]), List.erase_cons_head]
    rw [he]
    have h3 : getChain (setChain (setChain (setChain os cfg.chain
        (wlTcpRule cfg ip :: rs)) cfg.chain
        (wlUdpRule cfg ip :: wlTcpRule cfg ip :: rs)) cfg.chain
        (wlUdpRule cfg ip :: rs)) cfg.chain = some (wlUdpRule cfg ip :: rs) :=
      getChain_setChain_self _ _ _ (by simp [h2])
    rw [exec_delete_mem _ _ _ _ hpu h3 (List.mem_cons_self _ _),
      List.erase_cons_head]
    by_cases hc : c = cfg.chain
    · subst hc
      rw [getChain_setChain_self _ _ _ (by simp [h3]), hg]
    · rw [getChain_setChain_ne _ _ _ _ hc, getChain_setChain_ne _ _ _ _ hc,
        getChain_setChain_ne _ _ _ _ hc, getChain_setChain_ne _ _ _ _ hc]
  · intro cfg os ip rs hp hg hm c
    rw [blAdd, guardAppend_not_mem _ _ _ _ hp hg hm]
    have h1 : getChain (setChain os cfg.chain (rs ++ [blDropRule cfg ip])) cfg.chain =
        some (rs ++ [blDropRule cfg ip]) := getChain_setChain_self _ _ _ (by simp [hg])
    rw [blRemove, exec_delete_mem _ _ _ _ hp h1
      (List.mem_append_right _ (List.mem_cons_self _ _))]
    have he : (rs ++ [blDropRule cfg ip]).erase (blDropRule cfg ip) = rs := by
      rw [List.erase_append_right _ (by simpa using hm), List.erase_cons_head,
        List.append_nil]
    rw [he]
    by_cases hc : c = cfg.chain
    · subst hc
      rw [getChain_setChain_self _ _ _ (by simp [h1]), hg]
    · rw [getChain_setChain_ne _ _ _ _ hc, getChain_setChain_ne _ _ _ _ hc]
  · intro cfg s ip hip hu ht
    obtain ⟨W, B, R⟩ := s
    simp only [winWlAdd, winWlRemove, addWinRule, removeWinRule] at *
    rw [if_neg hip, if_pos (by simp)]
    have hun : winWlRule cfg ip "udp" ∉ insert (winWlRule cfg ip "tcp") R := by
      simp only [Finset.mem_insert]
      rintro (h | h)
      · exact winWlRule_udp_ne_tcp cfg ip h
      · exact hu h
    simp only [Finset.Insert.comm (winWlRule cfg ip "tcp") (winWlRule cfg ip "udp") R]
    rw [Finset.erase_insert hun, Finset.erase_insert ht, Finset.erase_insert hip]
  · intro cfg s ip hip hr
    obtain ⟨W, B, R⟩ := s
    simp only [winBlAdd, winBlRemove, addWinRule, removeWinRule] at *
    rw [if_neg hip, if_pos (by simp)]
    rw [Finset.erase_insert hr, Finset.erase_insert hip]

/-- Claim C8 witness: on the Windows whitelist starting from the empty
state, `add(9.9.9.9)` then `remove(9.9.9.9)` restores the empty state. -/
theorem wlFwdTcpRule_ports (cfg : WLCfg) (h : cfg.ports ≠ []) :
    (wlFwdTcpRule cfg).ports ≠ some [] := by
  simp [wlFwdTcpRule, h]

theorem wlFwdUdpRule_ports (cfg : WLCfg) (h : cfg.ports ≠ []) :
    (wlFwdUdpRule cfg).ports ≠ some [] := by
  simp [wlFwdUdpRule, h]

theorem defaultRule_ports : (({} : Rule)).ports ≠ some [] := by
  simp

theorem dropAllRule_ports : dropAllRule.ports ≠ some [] := by
  simp [dropAllRule]

theorem acceptLoRule_ports : acceptLoRule.ports ≠ some [] := by
  simp [acceptLoRule]

theorem flush_delete_new_chain (os : IptOS) (c : String) :
    getChain (iptablesExec (iptablesExec (iptablesExec os .flushChain c {}).1
      .deleteChain c {}).1 .newChain c {}).1 c = some [] := by
  cases hg : getChain os c with
  | none =>
    rw [exec_flush_none _ _ _ defaultRule_ports hg,
      exec_deleteChain_none _ _ _ defaultRule_ports hg,
      exec_newChain_none _ _ _ defaultRule_ports hg]
    exact getChain_createChain_self _ _ hg
  | some rs =>
    have h1 : getChain (setChain os c []) c = some [] :=
      getChain_setChain_self _ _ _ (by simp [hg])
    rw [exec_flush_some _ _ _ _ defaultRule_ports hg]
    cases href : referenced (setChain os c []) c with
    | false =>
      rw [exec_deleteChain_ok _ _ _ _ defaultRule_ports h1 rfl href,
        exec_newChain_none _ _ _ defaultRule_ports (getChain_dropChain_self _ _)]
      exact getChain_createChain_self _ _ (getChain_dropChain_self _ _)
    | true =>
      rw [exec_deleteChain_fail _ _ _ _ defaultRule_ports h1 (by simp [href]),
        exec_newChain_some _ _ _ _ defaultRule_ports h1]
      exact h1

theorem guardAppend_ensures_mem (c : String) (os : IptOS) (r : Rule) (rs : List Rule)
    (hp : r.ports ≠ some []) (h : getChain os c = some rs) :
    ∃ rs1, getChain (guardAppend c os r) c = some rs1 ∧ r ∈ rs1 ∧
      ∀ x ∈ rs, x ∈ rs1 := by
  by_cases hm : r ∈ rs
  · rw [guardAppend_mem _ _ _ _ hp h hm]
    exact ⟨rs, h, hm, fun x hx => hx⟩
  · rw [guardAppend_not_mem _ _ _ _ hp h hm]
    exact ⟨rs ++ [r], getChain_setChain_self _ _ _ (by simp [h]),
      List.mem_append_right _ (List.mem_cons_self _ _),
      fun x hx => List.mem_append_left _ hx⟩

theorem C8_add_remove_symmetry_witness :
    winWlRemove { name := "wl", ports := "7777,7778" }
      (winWlAdd { name := "wl", ports := "7777,7778" }
        { wlIPs := ∅, blIPs := ∅, rules := ∅ } "9.9.9.9") "9.9.9.9" =
      { wlIPs := ∅, blIPs := ∅, rules := ∅ } :=
  C8_add_remove_symmetry.2.2.1 { name := "wl", ports := "7777,7778" }
    { wlIPs := ∅, blIPs := ∅, rules := ∅ } "9.9.9.9"
    (by decide) (by decide) (by decide)

/-- Claim C4 counterexample: on the Windows backend, `Whitelist.reset`
from a state whose membership cache holds `1.2.3.4` leaves the cache
unchanged (not empty) and creates no rule at all — neither a catch-all
DROP nor a loopback ACCEPT — refuting the claim at this concrete input. -/
theorem C4_reset_counterexample :
    (winWlReset { name := "wl", ports := "7777,7778" }
        { wlIPs := {"1.2.3.4"}, blIPs := ∅, rules := ∅ }).wlIPs = {"1.2.3.4"} ∧
    ({"1.2.3.4"} : Finset String) ≠ (∅ : Finset String) ∧
    (winWlReset { name := "wl", ports := "7777,7778" }
        { wlIPs := {"1.2.3.4"}, blIPs := ∅, rules := ∅ }).rules = ∅ := by
  refine ⟨rfl, by decide, rfl⟩

/-- Claim C4 amended: on the Linux backend, `reset()` on a whitelist
converges from every prior state (the INPUT chain existing, a non-degenerate
configuration) to a chain holding exactly the loopback ACCEPT followed by
the catch-all DROP, with both forwarding rules present in INPUT (the Linux
whitelist keeps no membership cache); on the Windows backend, `reset()`
only deletes the policy's named rule group and leaves the membership cache
untouched. -/
theorem C4_reset_convergence :
    (∀ (cfg : WLCfg) (os : IptOS),
      cfg.chain ≠ input_chain → cfg.ports ≠ [] →
      (getChain os input_chain).isSome →
      getChain (wlReset cfg os) cfg.chain = some [acceptLoRule, dropAllRule] ∧
      ∃ rin, getChain (wlReset cfg os) input_chain = some rin ∧
        wlFwdTcpRule cfg ∈ rin ∧ wlFwdUdpRule cfg ∈ rin) ∧
    (∀ (cfg : WinWLCfg) (s : WinState),
      (winWlReset cfg s).wlIPs = s.wlIPs ∧
      (winWlReset cfg s).rules = s.rules.filter (fun r => r.name ≠ cfg.name)) := by
  constructor
  · intro cfg os hc hp hin
    have hfin : input_chain ≠ cfg.chain := fun h => hc h.symm
    have hbIn : (getChain (iptablesExec (iptablesExec os
        .delete input_chain (wlFwdTcpRule cfg)).1
        .delete input_chain (wlFwdUdpRule cfg)).1 input_chain).isSome :=
      exec_preserves_isSome _ _ _ _ _
        (exec_preserves_isSome _ _ _ _ _ hin (by simp)) (by simp)
    have he : getChain (iptablesExec (wlRemoveAll cfg os)
        .newChain cfg.chain {}).1 cfg.chain = some [] := by
      unfold wlRemoveAll
      exact flush_delete_new_chain _ _
    have hf : getChain (iptablesExec (iptablesExec (wlRemoveAll cfg os)
        .newChain cfg.chain {}).1 .append cfg.chain dropAllRule).1 cfg.chain =
        some [dropAllRule] := by
      rw [exec_append_some _ _ _ _ dropAllRule_ports he]
      exact getChain_setChain_self _ _ _ (by simp [he])
    have hg2 : getChain (iptablesExec (iptablesExec (iptablesExec (wlRemoveAll cfg os)
        .newChain cfg.chain {}).1 .append cfg.chain dropAllRule).1
        .insert cfg.chain acceptLoRule).1 cfg.chain =
        some [acceptLoRule, dropAllRule] := by
      rw [exec_insert_some _ _ _ _ acceptLoRule_ports hf]
      exact getChain_setChain_self _ _ _ (by simp [hf])
    have hgIn : (getChain (iptablesExec (iptablesExec (iptablesExec (wlRemoveAll cfg os)
        .newChain cfg.chain {}).1 .append cfg.chain dropAllRule).1
        .insert cfg.chain acceptLoRule).1 input_chain).isSome := by
      rw [exec_frame _ _ _ _ _ hfin, exec_frame _ _ _ _ _ hfin,
        exec_frame _ _ _ _ _ hfin]
      unfold wlRemoveAll
      rw [exec_frame _ _ _ _ _ hfin, exec_frame _ _ _ _ _ hfin]
      exact hbIn
    obtain ⟨rin, hrin⟩ := Option.isSome_iff_exists.mp hgIn
    obtain ⟨rin1, hrin1, hmem1, hsub1⟩ :=
      guardAppend_ensures_mem input_chain _ (wlFwdTcpRule cfg) rin
        (wlFwdTcpRule_ports cfg hp) hrin
    obtain ⟨rin2, hrin2, hmem2, hsub2⟩ :=
      guardAppend_ensures_mem input_chain _ (wlFwdUdpRule cfg) rin1
        (wlFwdUdpRule_ports cfg hp) hrin1
    unfold wlReset
    refine ⟨?_, rin2, hrin2, hsub2 _ hmem1, hmem2⟩
    rw [guardAppend_frame _ _ _ _ hc, guardAppend_frame _ _ _ _ hc]
    exact hg2
  · intro cfg s
    exact ⟨rfl, rfl⟩

/-- Claim C4 witness: resetting a fresh Linux whitelist configuration over
a small concrete kernel state yields exactly `[ACCEPT 127.0.0.1, DROP]` in
the chain and both forwarding rules in INPUT. -/
theorem C4_reset_convergence_witness :
    getChain (wlReset { ports := ["7777"], chain := "taserver-whitelist-0" }
      [(input_chain, [])] ) "taserver-whitelist-0" =
      some [acceptLoRule, dropAllRule] := by
  have h := (C4_reset_convergence.1 { ports := ["7777"], chain := "taserver-whitelist-0" }
    [(input_chain, [])] (by decide) (by decide) (by decide)).1
  exact h

/-- Claim C3 counterexample: on the Windows engine, a command naming the
nonexistent list `greylist` is not caught: the dispatch raises (modelled as
`.error`) instead of continuing, and a subsequent valid command is never
processed. -/
theorem C3_dispatch_counterexample :
    winRunStep demoWinWL demoWinBL { wlIPs := ∅, blIPs := ∅, rules := ∅ }
      { list := "greylist", action := "add", ip := "1.2.3.4" } =
      .error ("KeyError: greylist") ∧
    (winRunList demoWinWL demoWinBL { wlIPs := ∅, blIPs := ∅, rules := ∅ }
      [{ list := "greylist", action := "add", ip := "1.2.3.4" },
       { list := "whitelist", action := "add", ip := "9.9.9.9" }]).toOption = none := by
  exact ⟨rfl, rfl⟩

/-- Claim C3 amended: on the Linux engine every failure while handling one
command is caught and the loop continues — in particular a command naming
an unknown list leaves the state unchanged and subsequent commands are
still processed; on the Windows engine an unrecognized action is logged
and dropped, but a command naming an unknown list raises an uncaught
KeyError that halts the dispatch loop. -/
theorem C3_dispatch_robustness :
    (∀ (wcfg : WLCfg) (bcfg : BLCfg) (os : IptOS) (cmd : Command),
      cmd.list ≠ "whitelist" → cmd.list ≠ "blacklist" →
      iptRunStep wcfg bcfg os cmd = os) ∧
    (∀ (wcfg : WLCfg) (bcfg : BLCfg) (os : IptOS) (cmd : Command) (cmds : List Command),
      cmd.list ≠ "whitelist" → cmd.list ≠ "blacklist" →
      iptRunList wcfg bcfg os (cmd :: cmds) = iptRunList wcfg bcfg os cmds) ∧
    (∀ (wcfg : WLCfg) (bcfg : BLCfg) (os : IptOS) (cmd : Command),
      cmd.action ≠ "reset" → cmd.action ≠ "add" → cmd.action ≠ "remove" →
      iptRunStep wcfg bcfg os cmd = os) ∧
    (∀ (wcfg : WinWLCfg) (bcfg : WinBLCfg) (s : WinState) (cmd : Command),
      (cmd.list = "whitelist" ∨ cmd.list = "blacklist") →
      cmd.action ≠ "reset" → cmd.action ≠ "add" → cmd.action ≠ "remove" →
      winRunStep wcfg bcfg s cmd = .ok s) ∧
    (∀ (wcfg : WinWLCfg) (bcfg : WinBLCfg) (s : WinState) (cmd : Command),
      cmd.list ≠ "whitelist" → cmd.list ≠ "blacklist" →
      winRunStep wcfg bcfg s cmd = .error ("KeyError: " ++ cmd.list)) := by
  refine ⟨?_, ?_, ?_, ?_, ?_⟩
  · intro wcfg bcfg os cmd h1 h2
    simp [iptRunStep, h1, h2]
  · intro wcfg bcfg os cmd cmds h1 h2
    show iptRunList wcfg bcfg (iptRunStep wcfg bcfg os cmd) cmds = iptRunList wcfg bcfg os cmds
    rw [show iptRunStep wcfg bcfg os cmd = os by simp [iptRunStep, h1, h2]]
  · intro wcfg bcfg os cmd h1 h2 h3
    simp [iptRunStep, h1, h2, h3]
  · intro wcfg bcfg s cmd hl h1 h2 h3
    rcases hl with hl | hl <;> simp [winRunStep, hl, h1, h2, h3]
  · intro wcfg bcfg s cmd h1 h2
    simp [winRunStep, h1, h2]

/-- Claim C3 witness: the Linux engine drops a `greylist` command without
touching the kernel state and processes the rest of the queue. -/
theorem C3_dispatch_robustness_witness :
    iptRunList demoWL demoBL [(input_chain, [])]
      [{ list := "greylist", action := "add", ip := "1.2.3.4" }] = [(input_chain, [])] :=
  C3_dispatch_robustness.2.1 demoWL demoBL
    [(input_chain, [])] { list := "greylist", action := "add", ip := "1.2.3.4" } []
    (by decide) (by decide)

/-- Claim C5 counterexample: the Windows engine performs no IP validation:
an `add` command whose ip field is the unparsable string `not-an-ip`
mutates the whitelist membership cache and issues backend rule inserts. -/
theorem C5_ip_validation_counterexample :
    (winRunStep demoWinWL demoWinBL { wlIPs := ∅, blIPs := ∅, rules := ∅ }
      { list := "whitelist", action := "add", ip := "not-an-ip" }).toOption =
      some { wlIPs := {"not-an-ip"}, blIPs := ∅,
             rules := insert (winWlRule demoWinWL "not-an-ip" "tcp")
               (insert (winWlRule demoWinWL "not-an-ip" "udp") ∅) } ∧
    ip_address "not-an-ip" = none := by
  exact ⟨by decide, rfl⟩

/-- Claim C5 amended: the Linux engine parses the ip of every add/remove
command, dropping the command with no state change when parsing fails, and
hands the policy the canonical re-rendered form on success; the Windows
engine performs no validation and passes the ip text verbatim to the
policy. -/
theorem C5_ip_validation :
    (∀ (wcfg : WLCfg) (bcfg : BLCfg) (os : IptOS) (cmd : Command),
      (cmd.action = "add" ∨ cmd.action = "remove") → ip_address cmd.ip = none →
      iptRunStep wcfg bcfg os cmd = os) ∧
    (∀ (wcfg : WLCfg) (bcfg : BLCfg) (os : IptOS) (cmd : Command) (ip : String),
      cmd.list = "whitelist" → cmd.action = "add" → ip_address cmd.ip = some ip →
      iptRunStep wcfg bcfg os cmd = wlAdd wcfg os ip) ∧
    (∀ (wcfg : WLCfg) (bcfg : BLCfg) (os : IptOS) (cmd : Command) (ip : String),
      cmd.list = "blacklist" → cmd.action = "remove" → ip_address cmd.ip = some ip →
      iptRunStep wcfg bcfg os cmd = blRemove bcfg os ip) ∧
    (∀ (s : String) (t : String), ip_address s = some t →
      ∃ ns, (splitDot s.toList).mapM parseOctet = some ns ∧ ns.length = 4 ∧
        t = renderIp ns) ∧
    (∀ (wcfg : WinWLCfg) (bcfg : WinBLCfg) (s : WinState) (cmd : Command),
      cmd.list = "whitelist" → cmd.action = "add" →
      winRunStep wcfg bcfg s cmd = .ok (winWlAdd wcfg s cmd.ip)) := by
  refine ⟨?_, ?_, ?_, ?_, ?_⟩
  · intro wcfg bcfg os cmd ha hip
    rcases ha with ha | ha <;>
      · by_cases h1 : cmd.list = "whitelist"
        · simp [iptRunStep, h1, ha, hip]
        · by_cases h2 : cmd.list = "blacklist" <;> simp [iptRunStep, h1, h2, ha, hip]
  · intro wcfg bcfg os cmd ip hl ha hip
    simp [iptRunStep, hl, ha, hip]
  · intro wcfg bcfg os cmd ip hl ha hip
    simp [iptRunStep, hl, ha, hip]
  · intro s t h
    unfold ip_address at h
    cases hm : (splitDot s.toList).mapM parseOctet with
    | none =>
      rw [hm] at h
      simp at h
    | some ns =>
      rw [hm] at h
      by_cases hlen : ns.length = 4
      · refine ⟨ns, rfl, hlen, ?_⟩
        have h2 : some (renderIp ns) = some t := by
          rw [← h]
          simp [hlen]
        exact ((Option.some.injEq _ _).mp h2).symm
      · have h2 : (none : Option String) = some t := by
          rw [← h]
          simp [hlen]
        exact absurd h2 (by simp)
  · intro wcfg bcfg s cmd hl ha
    simp [winRunStep, hl, ha]

/-- Claim C5 witness: the Linux engine drops an `add not-an-ip` command
with the kernel state unchanged, and accepts `1.2.3.4` in canonical form. -/
theorem C5_ip_validation_witness :
    iptRunStep demoWL demoBL [(input_chain, [])]
      { list := "whitelist", action := "add", ip := "not-an-ip" } =
      [(input_chain, [])] :=
  C5_ip_validation.1 demoWL demoBL
    [(input_chain, [])] { list := "whitelist", action := "add", ip := "not-an-ip" }
    (Or.inl rfl) (by rfl)

/-- Claim C9: ban-file entries are never validated as IP addresses: an add
is issued for exactly every non-empty stripped token not already cached —
verbatim, with no normalization — so the text `not-an-ip`, rejected by the
command channel's `ip_address` parse, flows straight into the banned set
and the blacklist add call. -/
theorem C9_banfile_no_ip_validation :
    (∀ (banned : Finset String) (lines : List String) (ip : String),
      BanOp.add ip ∈ (update_banlist banned (some lines)).1 ↔
        ip ∈ parseBanfile lines ∧ ip ∉ banned) ∧
    update_banlist ∅ (some ["not-an-ip"]) = ([BanOp.add "not-an-ip"], {"not-an-ip"}) ∧
    ip_address "not-an-ip" = none := by
  have hp : parseBanfile ["not-an-ip"] = {"not-an-ip"} := by decide
  refine ⟨?_, by simp [update_banlist, hp, Finset.empty_sdiff, Finset.sdiff_empty,
    Finset.sort_empty, Finset.sort_singleton], rfl⟩
  intro banned lines ip
  have htr : (update_banlist banned (some lines)).1 =
      ((banned \ parseBanfile lines).sort (· ≤ ·)).map BanOp.remove ++
        ((parseBanfile lines \ banned).sort (· ≤ ·)).map BanOp.add := rfl
  rw [htr, List.mem_append]
  constructor
  · rintro (hmem | hmem)
    · rcases List.mem_map.mp hmem with ⟨a, _, ha⟩
      exact BanOp.noConfusion ha
    · rcases List.mem_map.mp hmem with ⟨a, hamem, ha⟩
      have : a = ip := banOp_add_injective ha
      subst this
      have := (Finset.mem_sort _).mp hamem
      exact Finset.mem_sdiff.mp this
  · intro hmem
    refine Or.inr (List.mem_map.mpr ⟨ip, ?_, rfl⟩)
    exact (Finset.mem_sort _).mpr (Finset.mem_sdiff.mpr hmem)

/-- Claim C10: the initial synchronous parse in `start` leaves the observed
mtime at its initial 0, so the first poll tick that sees the file with any
non-zero (in particular any real) mtime re-parses it even if unchanged;
change detection is plain inequality, so a strictly older mtime also
triggers; and the new mtime is recorded along with the re-parse. -/
theorem C10_mtime_polling :
    (∀ (file : Option (List String)) (s : BanlistState),
      (banlistStart file s).1.last_mtime = s.last_mtime) ∧
    banlistInit.last_mtime = 0 ∧
    (∀ (s : BanlistState) (mtime : Int) (lines : List String),
      mtime ≠ s.last_mtime →
      banlistPollTick true mtime lines s =
        ({ banned := parseBanfile lines, last_mtime := mtime },
          (update_banlist s.banned (some lines)).1)) ∧
    (∀ (s : BanlistState) (lines : List String),
      banlistPollTick true s.last_mtime lines s = (s, [])) := by
  refine ⟨fun file s => rfl, rfl, ?_, ?_⟩
  · intro s mtime lines h
    simp [banlistPollTick, h, update_banlist]
  · intro s lines
    simp [banlistPollTick]

/-- Claim C10 witness: from observed mtime 5, a poll tick seeing the
strictly older mtime 3 still re-parses the file and records 3. -/
theorem C10_mtime_polling_witness :
    banlistPollTick true 3 ["1.2.3.4"] { banned := ∅, last_mtime := 5 } =
      ({ banned := {"1.2.3.4"}, last_mtime := 3 }, [BanOp.add "1.2.3.4"]) := by
  have h := C10_mtime_polling.2.2.1 { banned := ∅, last_mtime := 5 } 3 ["1.2.3.4"]
    (by decide)
  rw [h]
  have hp : parseBanfile ["1.2.3.4"] = {"1.2.3.4"} := by decide
  simp [update_banlist, hp, Finset.empty_sdiff, Finset.sdiff_empty,
    Finset.sort_empty, Finset.sort_singleton]
end Taserver
